import Mathlib

/-!
Shallow embedding of the bee-detection repository (image_processor.py,
bee_detector.py, rabbitmq_processor.py, manual_cropper.py) together with
proofs settling the specification claims.

Modelling conventions:
* Machine images are embedded as `Img := List (List Nat)` (a row-major grid of
  one-channel pixel values); the claims under verification depend on pixel
  counting, per-pixel medians and dimensions, never on colour channels.
* Python floats are embedded as `Rat`; `int(...)` truncation toward zero is
  `truncQ`; `round(x, 3)` is `round3` (nearest, ties up — the tie-breaking
  convention differs from CPython only at exact half-thousandths, which no
  claim exercises).
* Opaque OpenCV primitives (colour conversion, Gaussian blur, Otsu
  binarisation, morphology, findContours, convexHull, fillPoly rasterisation)
  are not re-implemented: the per-threshold output of that pipeline — the raw
  binary mask and the raw external contours with their measured attributes —
  enters the embedding as data (`FrameData`), and everything the source does
  with that data (area counting, shape filtering, scoring, candidate
  selection, the colour fallback, percentage arithmetic) is translated
  faithfully from the source.
-/

/-- Truncation toward zero of a rational, the behaviour of Python `int(x)`. -/
def truncQ (q : ℚ) : ℤ := q.num / q.den

/-- Python `round(x, 3)`: round to the nearest thousandth. -/
def round3 (q : ℚ) : ℚ := ((round (q * 1000) : ℤ) : ℚ) / 1000

/-- Python `round(x, 2)`: round to the nearest hundredth. -/
def round2 (q : ℚ) : ℚ := ((round (q * 100) : ℤ) : ℚ) / 100

/-- A one-channel machine image: a list of pixel rows. -/
abbrev Img : Type := List (List ℕ)

/-- Number of pixel rows (`image.shape[0]`). -/
def Img.rowCount (img : Img) : ℕ := img.length

/-- Number of pixel columns (`image.shape[1]`), read off the first row. -/
def Img.colCount (img : Img) : ℕ := (img.headD []).length

/-- Pixel value at row `i`, column `j` (0 outside the stored grid). -/
def Img.pixAt (img : Img) (i j : ℕ) : ℕ := (img.getD i []).getD j 0

/-- Clamp an integer index into `[0, n-1]`, the replicated-border convention
OpenCV filters use at image edges. -/
def clampIdx (n : ℕ) (i : ℤ) : ℕ := (max 0 (min i ((n : ℤ) - 1))).toNat

/-- Pixel access with replicated borders, for the blur stencil. -/
def Img.pixClamped (img : Img) (i j : ℤ) : ℕ :=
  img.pixAt (clampIdx img.rowCount i) (clampIdx img.colCount j)

/-- Stencil weight of the separable 3x3 Gaussian kernel (1 2 1)/4. -/
def gaussWeight (d : ℤ) : ℕ := if d = 0 then 2 else 1

/-- The `cv2.GaussianBlur(img, (3, 3), 0)` smoothing pass: 3x3 kernel
(1 2 1)x(1 2 1)/16 with replicated borders and round-to-nearest. The claims
depend only on this being a deterministic, shape-preserving function of its
input, which any faithful rendering of the OpenCV kernel satisfies. -/
def gaussianBlur (img : Img) : Img :=
  (List.range img.rowCount).map fun i =>
    (List.range img.colCount).map fun j =>
      (((List.range 3).map fun a =>
          ((List.range 3).map fun b =>
            gaussWeight ((a : ℤ) - 1) * gaussWeight ((b : ℤ) - 1) *
              img.pixClamped ((i : ℤ) + ((a : ℤ) - 1)) ((j : ℤ) + ((b : ℤ) - 1))).sum).sum
        + 8) / 16

/-- The `cv2.resize(img, (width, height))` call in `create_background`,
rendered as nearest-neighbour sampling; the source comment base ("exact
interpolation algorithm is not load-bearing") is honoured — no claim depends
on interpolated values, only on the output dimensions. -/
def resizeNN (img : Img) (h w : ℕ) : Img :=
  (List.range h).map fun i =>
    (List.range w).map fun j =>
      img.pixAt (i * img.rowCount / h) (j * img.colCount / w)

/-- Per-pixel `np.median` over a stack: sort the samples; middle element for
an odd count, truncated mean of the two middle elements for an even count
(`np.median` returns a float which `.astype(np.uint8)` truncates). -/
def medianNat (l : List ℕ) : ℕ :=
  let s := l.insertionSort (· ≤ ·)
  if s.length % 2 = 1 then s.getD (s.length / 2) 0
  else (s.getD (s.length / 2 - 1) 0 + s.getD (s.length / 2) 0) / 2

/-- Per-pixel `np.mean` over a stack, truncated by `.astype(np.uint8)`. -/
def meanNat (l : List ℕ) : ℕ := l.sum / l.length

/-- `np.median(image_stack, axis=0)` for an `h` by `w` canvas. -/
def medianStack (frames : List Img) (h w : ℕ) : Img :=
  (List.range h).map fun i =>
    (List.range w).map fun j => medianNat (frames.map fun f => f.pixAt i j)

/-- `np.mean(image_stack, axis=0)` for an `h` by `w` canvas. -/
def meanStack (frames : List Img) (h w : ℕ) : Img :=
  (List.range h).map fun i =>
    (List.range w).map fun j => meanNat (frames.map fun f => f.pixAt i j)

/-- `ImageProcessor.create_background` (image_processor.py lines 58-107):
`None` for an empty list or an unknown method; otherwise frames whose
dimensions differ from the first frame's are resized to match, the stack is
reduced per pixel (median for 'median' and 'mode', mean for 'mean'), and the
result is blurred. -/
def create_background (image_list : List Img) (method : String) : Option Img :=
  match image_list with
  | [] => none
  | img0 :: _ =>
    let h := img0.rowCount
    let w := img0.colCount
    let processed := image_list.map fun img =>
      if img.rowCount = h ∧ img.colCount = w then img else resizeNN img h w
    if method = "median" then some (gaussianBlur (medianStack processed h w))
    else if method = "mean" then some (gaussianBlur (meanStack processed h w))
    else if method = "mode" then some (gaussianBlur (medianStack processed h w))
    else none

/-- Cyclic shoelace sum of a polygon's integer vertices, the quantity whose
halved absolute value `cv2.contourArea` returns. -/
def shoelace (pts : List (ℤ × ℤ)) : ℤ :=
  ((pts.zip (pts.rotate 1)).map fun pq => pq.1.1 * pq.2.2 - pq.2.1 * pq.1.2).sum

/-- `cv2.contourArea` on a point list: mathematical polygon area. -/
def contourArea (pts : List (ℤ × ℤ)) : ℚ := |((shoelace pts : ℤ) : ℚ)| / 2

/-- `ImageProcessor` state: the crop polygon and its precomputed
mathematical area (image_processor.py lines 9-19). -/
structure ImageProcessor where
  crop_polygon : List (ℤ × ℤ)
  polygon_area : ℚ
deriving DecidableEq

/-- `ImageProcessor.__init__`: stores the polygon and computes
`cv2.contourArea` on it. No validation of any kind is performed. -/
def ImageProcessor.init (crop_polygon : List (ℤ × ℤ)) : ImageProcessor :=
  { crop_polygon := crop_polygon, polygon_area := contourArea crop_polygon }

/-- The spec's `buildRegion(points) -> Region` operation, which the source
realises as the (total, never-failing) `ImageProcessor` constructor. -/
def buildRegion (pts : List (ℤ × ℤ)) : Option ImageProcessor :=
  some (ImageProcessor.init pts)

/-- The guard in `ManualCropper.mouse_callback` (manual_cropper.py line 28):
the right-click that finishes the polygon is honoured only when
`len(self.points) > 2`. -/
def ManualCropper.canFinish (points : List (ℤ × ℤ)) : Bool :=
  decide (2 < points.length)

/-- Module constant `DETECTION_THRESHOLDS` (bee_detector.py line 6). -/
def DETECTION_THRESHOLDS : List ℕ := [15, 25, 35, 45]

/-- Module constant `MIN_BEE_AREA` (bee_detector.py line 7). -/
def MIN_BEE_AREA : ℚ := 20

/-- Module constant `MAX_BEE_AREA` (bee_detector.py line 8). -/
def MAX_BEE_AREA : ℚ := 8000

/-- Module constant `MIN_ASPECT_RATIO` (bee_detector.py line 11). -/
def MIN_ASPECT : ℚ := 3 / 10

/-- Module constant `MAX_ASPECT_RATIO` (bee_detector.py line 12). -/
def MAX_ASPECT : ℚ := 3

/-- Module constant `MIN_SOLIDITY` (bee_detector.py line 13). -/
def MIN_SOLIDITY : ℚ := 3 / 10

/-- One raw external contour as measured by OpenCV: `cv2.contourArea`, the
`cv2.boundingRect` width/height, the convex hull's area, and `fillMask`, the
rasterisation `cv2.fillPoly(mask, [contour], 255)` writes for this contour.
The measurements are data here; what the source computes from them (aspect
ratio, solidity, the filters, the accepted-contour mask and its pixel count)
is translated below. -/
structure Contour where
  area : ℚ
  w : ℕ
  h : ℕ
  hullArea : ℚ
  fillMask : Img
deriving DecidableEq

/-- Everything the opaque image-processing primitives extract from one frame,
supplied as data: the frame dimensions, the raw external contours the
diff/threshold/morphology pipeline of `detect_bees` finds at each threshold
(bee_detector.py lines 59-88, before any filtering), and the
colour-segmentation mask/contours after the open+close morphology of
`analyze_image` lines 195-212. -/
structure FrameData where
  rows : ℕ
  cols : ℕ
  detect : ℕ → List Contour
  colorMask : Img
  colorContours : List Contour

/-- `BeeDetector` state (bee_detector.py lines 19-38); the grayscale cache
and colour bounds feed only opaque OpenCV calls and are omitted. -/
structure Detector where
  background : Img
  valid_area_pixels : Option ℚ
  thresholds : List ℕ
  min_area : ℚ
  max_area : ℚ
  min_aspect : ℚ
  max_aspect : ℚ
  min_solidity : ℚ

/-- `BeeDetector.__init__`: stores the background and valid area and copies
the module constants into the instance. -/
def BeeDetector.init (background : Img) (valid_area_pixels : Option ℚ) : Detector :=
  { background := background
    valid_area_pixels := valid_area_pixels
    thresholds := DETECTION_THRESHOLDS
    min_area := MIN_BEE_AREA
    max_area := MAX_BEE_AREA
    min_aspect := MIN_ASPECT
    max_aspect := MAX_ASPECT
    min_solidity := MIN_SOLIDITY }

/-- `BeeDetector.update_background` (bee_detector.py lines 112-120):
replaces the background reference, touching nothing else. -/
def update_background (det : Detector) (new_background : Img) : Detector :=
  { det with background := new_background }

/-- `calculate_bee_area` (bee_detector.py lines 122-132):
`np.sum(bee_mask > 0)`, the count of nonzero mask pixels. -/
def calculate_bee_area (bee_mask : Img) : ℕ :=
  (bee_mask.map fun row => (row.filter fun p => 0 < p).length).sum

/-- `calculate_total_area` (bee_detector.py lines 134-147): the supplied
`valid_area_pixels` when it is truthy (not `None` and nonzero), otherwise the
frame's full pixel count `shape[0] * shape[1]`. -/
def calculate_total_area (det : Detector) (frame : FrameData) : ℚ :=
  match det.valid_area_pixels with
  | some v => if v ≠ 0 then v else ((frame.rows * frame.cols : ℕ) : ℚ)
  | none => ((frame.rows * frame.cols : ℕ) : ℚ)

/-- Bounding-box aspect ratio `float(w) / h` (bee_detector.py line 99);
`cv2.boundingRect` heights are at least 1, so the total rational division
agrees with Python on every reachable contour. -/
def aspectOf (c : Contour) : ℚ := (c.w : ℚ) / (c.h : ℚ)

/-- Contour solidity (bee_detector.py line 102): `area / hull_area` when the
hull area is positive, else 0 — the explicit division-by-zero guard. -/
def solidityOf (c : Contour) : ℚ :=
  if 0 < c.hullArea then c.area / c.hullArea else 0

/-- The contour filter of `detect_bees` (bee_detector.py lines 94-108): area
within `[min_area, max_area]`, aspect ratio within bounds, solidity strictly
above the minimum. -/
def contourAccept (det : Detector) (c : Contour) : Bool :=
  decide (det.min_area ≤ c.area ∧ c.area ≤ det.max_area) &&
    decide (det.min_aspect ≤ aspectOf c ∧ aspectOf c ≤ det.max_aspect ∧
      det.min_solidity < solidityOf c)

/-- The `bee_mask` accumulation of `detect_bees` (bee_detector.py lines 92
and 108): starting from `np.zeros_like(thresh)` (the cropped frame's `h` by
`w` canvas), `cv2.fillPoly(bee_mask, [contour], 255)` is applied for each
kept contour, so a pixel is 255 exactly when some kept contour's
rasterisation covers it. -/
def maskUnion (h w : ℕ) (masks : List Img) : Img :=
  (List.range h).map fun i =>
    (List.range w).map fun j =>
      if masks.any fun m => decide (0 < m.pixAt i j) then 255 else 0

/-- `detect_bees` at an explicit threshold (bee_detector.py lines 40-110):
the raw contours of the opaque diff pipeline are filtered by
area/aspect/solidity, and the returned mask is rasterised from the accepted
contours only (zero canvas + `fillPoly` per accepted contour). -/
def detect_bees (det : Detector) (frame : FrameData) (threshold : ℕ) :
    Img × List Contour :=
  let bee_contours := (frame.detect threshold).filter fun c => contourAccept det c
  (maskUnion frame.rows frame.cols (bee_contours.map Contour.fillMask),
    bee_contours)

/-- Coverage percentage of the mask `detect_bees` returns at one threshold:
`(bee_area / total_area) * 100` (bee_detector.py line 171). -/
def pctAt (det : Detector) (frame : FrameData) (threshold : ℕ) : ℚ :=
  ((calculate_bee_area (detect_bees det frame threshold).1 : ℕ) : ℚ) /
    calculate_total_area det frame * 100

/-- Number of contours `detect_bees` keeps at one threshold. -/
def numContoursAt (det : Detector) (frame : FrameData) (threshold : ℕ) : ℕ :=
  (detect_bees det frame threshold).2.length

/-- The per-threshold selection score (bee_detector.py lines 173-177):
`min(coverage, 60) + min(2 * contours, 20)`. -/
def scoreAt (det : Detector) (frame : FrameData) (threshold : ℕ) : ℚ :=
  min (pctAt det frame threshold) 60 +
    ((min (2 * numContoursAt det frame threshold) 20 : ℕ) : ℚ)

/-- The `threshold_used` tag: a numeric threshold or `'color_based'`. -/
inductive ThresholdUsed where
  | numeric (t : ℕ)
  | colorBased
deriving DecidableEq

/-- The analysis-result record of `analyze_image` (bee_detector.py lines
181-192 and 216-223). The wall-clock timestamp and the stored mask object are
omitted; the mask's pixel count already appears as `bee_area_pixels`. -/
structure DetectionResult where
  filename : String
  bee_area_pixels : ℤ
  total_area_pixels : ℤ
  bee_percentage : ℚ
  num_bee_contours : ℕ
  threshold_used : ThresholdUsed
  detection_method : String
  score : ℚ
deriving DecidableEq

/-- The candidate record `analyze_image` builds for one threshold
(bee_detector.py lines 181-192). -/
def resultFor (det : Detector) (frame : FrameData) (filename : String)
    (threshold : ℕ) : DetectionResult :=
  let bee_area := calculate_bee_area (detect_bees det frame threshold).1
  let total_area := calculate_total_area det frame
  { filename := filename
    bee_area_pixels := (bee_area : ℤ)
    total_area_pixels := truncQ total_area
    bee_percentage := round3 ((bee_area : ℚ) / total_area * 100)
    num_bee_contours := numContoursAt det frame threshold
    threshold_used := ThresholdUsed.numeric threshold
    detection_method := "background_subtraction"
    score := round2 (scoreAt det frame threshold) }

/-- One step of the best-candidate accumulation (bee_detector.py lines
179-192): keep the running best unless the new score is strictly larger. -/
def amStep {α β : Type} (g : α → ℚ) (f : α → β) (acc : Option β × ℚ) (t : α) :
    Option β × ℚ :=
  if acc.2 < g t then (some (f t), g t) else acc

/-- The Method-1 loop of `analyze_image` (bee_detector.py lines 161-192):
fold the score comparison over the configured thresholds starting from the
sentinel `(None, -1)`. -/
def bestCandidate (det : Detector) (frame : FrameData) (filename : String) :
    Option DetectionResult × ℚ :=
  det.thresholds.foldl
    (amStep (scoreAt det frame) (resultFor det frame filename)) (none, -1)

/-- Colour-segmentation coverage percentage (bee_detector.py lines 206-207):
nonzero pixels of the cleaned colour mask against the same total area. -/
def colorPct (det : Detector) (frame : FrameData) : ℚ :=
  ((calculate_bee_area frame.colorMask : ℕ) : ℚ) /
    calculate_total_area det frame * 100

/-- The Method-2 colour fallback of `analyze_image` (bee_detector.py lines
194-223): when the colour coverage strictly exceeds both 1.2 times the primary
candidate's stored percentage and the absolute 3% floor, overwrite the
area/percentage/contour-count/threshold-tag/method fields with the
colour-based values; the colour contours are re-filtered by area only. -/
def colorStep (det : Detector) (frame : FrameData) (best : DetectionResult) :
    DetectionResult :=
  if best.bee_percentage * (12 / 10) < colorPct det frame ∧ 3 < colorPct det frame then
    { best with
      bee_area_pixels := ((calculate_bee_area frame.colorMask : ℕ) : ℤ)
      bee_percentage := round3 (colorPct det frame)
      num_bee_contours := (frame.colorContours.filter fun c =>
        decide (det.min_area ≤ c.area ∧ c.area ≤ det.max_area)).length
      threshold_used := ThresholdUsed.colorBased
      detection_method := "color_segmentation" }
  else best

/-- `analyze_image` (bee_detector.py lines 149-225): primary candidate from
the threshold loop, then the colour fallback. An empty threshold list leaves
the accumulator at `None` (on which the source would raise on line 211);
the constructor always installs the nonempty `DETECTION_THRESHOLDS`. -/
def analyze_image (det : Detector) (frame : FrameData) (filename : String) :
    Option DetectionResult :=
  ((bestCandidate det frame filename).1).map (colorStep det frame)

/-- Appending to a `collections.deque(maxlen := cap)`: the new element goes to
the right and elements fall off the left so that at most `cap` remain. For
every reachable buffer (length at most `cap`) this drops at most one element,
exactly CPython's behaviour. -/
def dequeAppend (cap : ℕ) (buf : List Img) (x : Img) : List Img :=
  (buf ++ [x]).drop (buf.length + 1 - cap)

/-- Folding a whole arrival sequence into the deque. -/
def ingestAll (cap : ℕ) (buf : List Img) (xs : List Img) : List Img :=
  xs.foldl (dequeAppend cap) buf

/-- The `PROCESSING_CONFIG` fields the pipeline logic reads
(rabbitmq_config.py lines 11-19). -/
structure ProcessingConfig where
  background_size : ℕ
  background_update_frequency : ℕ

/-- The mutable processing state of `RabbitMQBeeProcessor`
(rabbitmq_processor.py lines 34-43): the frame buffer, the lazily created
detector, and the processed-frame counter. -/
structure PipelineState where
  image_buffer : List Img
  bee_detector : Option Detector
  image_count : ℕ

/-- `create_background_from_buffer` (rabbitmq_processor.py lines 184-207):
refuses buffers of fewer than 5 frames, otherwise builds the median
background from the buffered frames. -/
def create_background_from_buffer (buffer : List Img) : Option Img :=
  if buffer.length < 5 then none else create_background buffer "median"

/-- `process_single_image` (rabbitmq_processor.py lines 209-302), the per
message state transition. The polygon crop and the extraction of the opaque
per-frame measurements are the parameters `crop` and `measure`; filename
sanitisation, artifact saving and the result-enrichment bookkeeping are
omitted as they do not alter the state machine or whether a result is
emitted. Returns the successor state and the emitted detection result, if
any. -/
def process_single_image (cfg : ProcessingConfig) (crop : Img → Img)
    (measure : Img → FrameData) (proc : ImageProcessor) (st : PipelineState)
    (img : Img) (filename : String) : PipelineState × Option DetectionResult :=
  let cropped := crop img
  let buffer := dequeAppend cfg.background_size st.image_buffer cropped
  match st.bee_detector with
  | none =>
    if cfg.background_size ≤ buffer.length then
      match create_background_from_buffer buffer with
      | some bg =>
        let det := BeeDetector.init bg (some proc.polygon_area)
        ({ st with image_buffer := buffer, bee_detector := some det },
          analyze_image det (measure cropped) filename)
      | none => ({ st with image_buffer := buffer }, none)
    else ({ st with image_buffer := buffer }, none)
  | some det =>
    let det2 :=
      if st.image_count % cfg.background_update_frequency = 0 ∧
          cfg.background_size ≤ buffer.length then
        match create_background_from_buffer buffer with
        | some bg => update_background det bg
        | none => det
      else det
    ({ st with image_buffer := buffer, bee_detector := some det2 },
      analyze_image det2 (measure cropped) filename)

/-- A 3x3 mask with every pixel set (a fully covered cropped frame). -/
def exMaskFull : Img := [[255, 255, 255], [255, 255, 255], [255, 255, 255]]

/-- A 3x3 all-zero mask. -/
def exMaskZero : Img := [[0, 0, 0], [0, 0, 0], [0, 0, 0]]

/-- The raw full-frame contour OpenCV reports when an entire 3x3 crop is
foreground: the boundary of the 3x3 blob has `cv2.contourArea` 4 (the 2x2
vertex square), a 3x3 bounding box, is its own convex hull, and its
`fillPoly` rasterisation covers all nine pixels. Its area 4 is below
`MIN_BEE_AREA = 20`, so the `detect_bees` filter rejects it. -/
def smallContour : Contour :=
  { area := 4, w := 3, h := 3, hullArea := 4, fillMask := exMaskFull }

/-- A contour whose convex hull degenerated to zero area. -/
def zeroHullContour : Contour :=
  { area := 25, w := 5, h := 5, hullArea := 0, fillMask := exMaskZero }

/-- Frame measurements of a 3x3 cropped frame: at every threshold the diff
pipeline finds only the full-frame contour, which the area filter rejects
(so background subtraction keeps nothing), and the colour channel finds
nothing at all. -/
def exFrameA : FrameData :=
  { rows := 3, cols := 3
    detect := fun _ => [smallContour]
    colorMask := exMaskZero
    colorContours := [] }

/-- Frame measurements of a fully bee-coloured 3x3 cropped frame: the diff
pipeline again finds only the rejected full-frame contour, but the HSV
in-range mask covers all nine pixels and `cv2.findContours` on that full
mask yields the same full-frame contour. -/
def exFrameB : FrameData :=
  { rows := 3, cols := 3
    detect := fun _ => [smallContour]
    colorMask := exMaskFull
    colorContours := [smallContour] }

/-- The axis-aligned square polygon (0,0)-(2,0)-(2,2)-(0,2). Its mathematical
contour area is 4, while `cv2.fillPoly`/`boundingRect` cropping of it covers
the 3x3 = 9 pixel grid with 0 ≤ x ≤ 2, 0 ≤ y ≤ 2 — the mismatch behind the
C3 counterexample. -/
def sqPoly : List (ℤ × ℤ) := [(0, 0), (2, 0), (2, 2), (0, 2)]

/-- Detector whose `valid_area_pixels` is the square polygon's mathematical
area (how `process_single_image` constructs it from `polygon_area`). -/
def exDetSq : Detector := BeeDetector.init [[0]] (some (contourArea sqPoly))

/-- Detector with no supplied valid area (falls back to the pixel count). -/
def exDetNone : Detector := BeeDetector.init [[0]] none

/-- The primary candidate `analyze_image` keeps for `exDetSq` on either 3x3
frame: no accepted contours, zero coverage against the total area 4. -/
def exResultSq : DetectionResult :=
  { filename := "frame.jpg", bee_area_pixels := 0, total_area_pixels := 4
    bee_percentage := 0, num_bee_contours := 0
    threshold_used := ThresholdUsed.numeric 15
    detection_method := "background_subtraction", score := 0 }

/-- The primary candidate `analyze_image` keeps for `exDetNone`/`exFrameB`:
no accepted contours, zero coverage against the 9-pixel frame. -/
def exResultNoneB : DetectionResult :=
  { filename := "frame.jpg", bee_area_pixels := 0, total_area_pixels := 9
    bee_percentage := 0, num_bee_contours := 0
    threshold_used := ThresholdUsed.numeric 15
    detection_method := "background_subtraction", score := 0 }

/-- The result `analyze_image` produces for `exDetSq`/`exFrameB`: the colour
fallback fires (225 > 1.2 * 0 and 225 > 3) and reports the 9 colour-mask
pixels against the polygon's mathematical area 4 — coverage 225%; the colour
contour (area 4 < 20) is dropped by the area-only re-filter. -/
def exResultColorSq : DetectionResult :=
  { filename := "frame.jpg", bee_area_pixels := 9, total_area_pixels := 4
    bee_percentage := 225, num_bee_contours := 0
    threshold_used := ThresholdUsed.colorBased
    detection_method := "color_segmentation", score := 0 }

/-- The result `analyze_image` produces for `exDetNone`/`exFrameB`: the
colour fallback fires (100 > 1.2 * 0 and 100 > 3) and reports the 9
colour-mask pixels against the 9-pixel frame — coverage 100%. -/
def exResultColorNone : DetectionResult :=
  { filename := "frame.jpg", bee_area_pixels := 9, total_area_pixels := 9
    bee_percentage := 100, num_bee_contours := 0
    threshold_used := ThresholdUsed.colorBased
    detection_method := "color_segmentation", score := 0 }

/-- A 1x1 frame. -/
def imgA : Img := [[5]]

/-- A 2x1 frame, deliberately of different dimensions than `imgA`. -/
def imgB : Img := [[3], [7]]

/-- A two-point "polygon". -/
def twoPts : List (ℤ × ℤ) := [(0, 0), (1, 0)]

/-- A degenerate polygon: three collinear points, mathematical area 0. -/
def degPoly : List (ℤ × ℤ) := [(0, 0), (1, 1), (2, 2)]

/-- The default processing configuration: background window 15, background
refresh every frame (rabbitmq_config.py lines 11-16). -/
def cfg15 : ProcessingConfig :=
  { background_size := 15, background_update_frequency := 1 }

/-- A tiny configuration for exercising the detector-present path. -/
def cfg1 : ProcessingConfig :=
  { background_size := 1, background_update_frequency := 1 }

/-- Fresh pipeline state: empty buffer, no detector. -/
def st0 : PipelineState :=
  { image_buffer := [], bee_detector := none, image_count := 0 }

/-- Pipeline state that already holds a detector. -/
def stDet : PipelineState :=
  { image_buffer := [], bee_detector := some exDetSq, image_count := 1 }

/-- Constant frame measurement used to exercise the pipeline. -/
def exMeasure : Img → FrameData := fun _ => exFrameA


/-- Another 1x1 frame. -/
def imgC : Img := [[7]]


lemma round3_mono {a b : ℚ} (h : a ≤ b) : round3 a ≤ round3 b := by
  unfold round3
  have h2 : round (a * 1000) ≤ round (b * 1000) := by
    rw [round_eq, round_eq]
    exact Int.floor_mono (by linarith)
  have h3 : ((round (a * 1000) : ℤ) : ℚ) ≤ ((round (b * 1000) : ℤ) : ℚ) :=
    Int.cast_le.mpr h2
  linarith

lemma round3_nonneg {a : ℚ} (h : 0 ≤ a) : 0 ≤ round3 a := by
  have h0 : round3 0 = 0 := by norm_num [round3]
  calc (0 : ℚ) = round3 0 := h0.symm
    _ ≤ round3 a := round3_mono h

lemma round3_le_100 {a : ℚ} (h : a ≤ 100) : round3 a ≤ 100 := by
  have h100 : round3 100 = 100 := by
    norm_num [round3, round_eq]
  calc round3 a ≤ round3 100 := round3_mono h
    _ = 100 := h100

lemma medianNat_perm {l l' : List ℕ} (hp : l.Perm l') : medianNat l = medianNat l' := by
  have hs : l.insertionSort (· ≤ ·) = l'.insertionSort (· ≤ ·) :=
    List.eq_of_perm_of_sorted
      (((List.perm_insertionSort _ l).trans hp).trans
        (List.perm_insertionSort _ l').symm)
      (List.sorted_insertionSort _ l) (List.sorted_insertionSort _ l')
  simp only [medianNat, hs]

lemma amFold_isSome {α β : Type} (g : α → ℚ) (f : α → β) :
    ∀ (l : List α) (acc : Option β × ℚ), acc.1.isSome = true →
      ((l.foldl (amStep g f) acc).1).isSome = true := by
  intro l
  induction l with
  | nil => intro acc h; simpa using h
  | cons t ts ih =>
    intro acc h
    rw [List.foldl_cons]
    apply ih
    by_cases hc : acc.2 < g t
    · simp [amStep, hc]
    · simpa [amStep, hc] using h

lemma amFold_argmax {α β : Type} (g : α → ℚ) (f : α → β) (l : List α) :
    ∀ t0 : α,
      ∃ pre c post, t0 :: l = pre ++ c :: post ∧
        l.foldl (amStep g f) (some (f t0), g t0) = (some (f c), g c) ∧
        (∀ x ∈ t0 :: l, g x ≤ g c) ∧ (∀ x ∈ pre, g x < g c) := by
  induction l with
  | nil =>
    intro t0
    exact ⟨[], t0, [], rfl, rfl, by simp, by simp⟩
  | cons t ts ih =>
    intro t0
    rw [List.foldl_cons]
    by_cases hc : g t0 < g t
    · have hstep : amStep g f (some (f t0), g t0) t = (some (f t), g t) := by
        simp [amStep, hc]
      rw [hstep]
      obtain ⟨pre, c, post, hsplit, heq, hmax, hstrict⟩ := ih t
      have htc : g t ≤ g c := hmax t (by simp)
      refine ⟨t0 :: pre, c, post, ?_, heq, ?_, ?_⟩
      · rw [List.cons_append, ← hsplit]
      · intro x hx
        rcases List.mem_cons.mp hx with rfl | hx
        · exact le_of_lt (lt_of_lt_of_le hc htc)
        · exact hmax x hx
      · intro x hx
        rcases List.mem_cons.mp hx with rfl | hx
        · exact lt_of_lt_of_le hc htc
        · exact hstrict x hx
    · have hstep : amStep g f (some (f t0), g t0) t = (some (f t0), g t0) := by
        simp [amStep, hc]
      rw [hstep]
      obtain ⟨pre, c, post, hsplit, heq, hmax, hstrict⟩ := ih t0
      have hle : g t ≤ g t0 := le_of_not_lt hc
      cases pre with
      | nil =>
        obtain ⟨rfl, rfl⟩ : t0 = c ∧ ts = post := by
          simpa using hsplit
        refine ⟨[], t0, t :: ts, rfl, heq, ?_, by simp⟩
        intro x hx
        rcases List.mem_cons.mp hx with rfl | hx
        · exact le_refl _
        rcases List.mem_cons.mp hx with rfl | hx
        · exact hle
        · exact hmax x (List.mem_cons.mpr (Or.inr hx))
      | cons p pre2 =>
        rw [List.cons_append] at hsplit
        obtain ⟨rfl, hts⟩ : t0 = p ∧ ts = pre2 ++ c :: post := by
          injection hsplit with h1 h2
          exact ⟨h1, h2⟩
        have ht0c : g t0 ≤ g c := hmax t0 (by simp)
        have ht0strict : g t0 < g c := hstrict t0 (by simp)
        refine ⟨t0 :: t :: pre2, c, post, ?_, heq, ?_, ?_⟩
        · rw [List.cons_append, List.cons_append, ← hts]
        · intro x hx
          rcases List.mem_cons.mp hx with rfl | hx
          · exact ht0c
          rcases List.mem_cons.mp hx with rfl | hx
          · exact le_trans hle ht0c
          · exact hmax x (List.mem_cons.mpr (Or.inr hx))
        · intro x hx
          rcases List.mem_cons.mp hx with rfl | hx
          · exact ht0strict
          rcases List.mem_cons.mp hx with rfl | hx
          · exact lt_of_le_of_lt hle ht0strict
          · exact hstrict x (List.mem_cons.mpr (Or.inr hx))

lemma scoreAt_nonneg (det : Detector) (frame : FrameData) (t : ℕ)
    (hv : 0 ≤ calculate_total_area det frame) : 0 ≤ scoreAt det frame t := by
  unfold scoreAt
  have h1 : 0 ≤ pctAt det frame t :=
    mul_nonneg (div_nonneg (Nat.cast_nonneg _) hv) (by norm_num)
  have h2 : (0 : ℚ) ≤ min (pctAt det frame t) 60 := le_min h1 (by norm_num)
  have h3 : (0 : ℚ) ≤ ((min (2 * numContoursAt det frame t) 20 : ℕ) : ℚ) :=
    Nat.cast_nonneg _
  linarith

lemma bestCandidate_spec (det : Detector) (frame : FrameData) (fn : String)
    (hne : det.thresholds ≠ []) (hv : 0 ≤ calculate_total_area det frame) :
    ∃ pre c post, det.thresholds = pre ++ c :: post ∧
      (bestCandidate det frame fn).1 = some (resultFor det frame fn c) ∧
      (∀ t ∈ det.thresholds, scoreAt det frame t ≤ scoreAt det frame c) ∧
      (∀ t ∈ pre, scoreAt det frame t < scoreAt det frame c) := by
  obtain ⟨t0, rest, hl⟩ := List.exists_cons_of_ne_nil hne
  have hst : amStep (scoreAt det frame) (resultFor det frame fn) (none, -1) t0
      = (some (resultFor det frame fn t0), scoreAt det frame t0) := by
    have hpos : (-1 : ℚ) < scoreAt det frame t0 :=
      lt_of_lt_of_le (by norm_num) (scoreAt_nonneg det frame t0 hv)
    simp [amStep, hpos]
  obtain ⟨pre, c, post, hsplit, heq, hmax, hstrict⟩ :=
    amFold_argmax (scoreAt det frame) (resultFor det frame fn) rest t0
  refine ⟨pre, c, post, ?_, ?_, ?_, hstrict⟩
  · rw [hl]; exact hsplit
  · unfold bestCandidate
    rw [hl, List.foldl_cons, hst, heq]
  · intro t ht
    rw [hl] at ht
    exact hmax t ht

lemma analyze_isSome (det : Detector) (frame : FrameData) (fn : String)
    (hne : det.thresholds ≠ []) (hv : 0 ≤ calculate_total_area det frame) :
    (analyze_image det frame fn).isSome = true := by
  obtain ⟨pre, c, post, _, heq, _, _⟩ := bestCandidate_spec det frame fn hne hv
  unfold analyze_image
  rw [heq]
  rfl

lemma resultFor_method (det : Detector) (frame : FrameData) (fn : String)
    (t : ℕ) : (resultFor det frame fn t).detection_method = "background_subtraction" :=
  rfl

lemma dequeAppend_length (cap : ℕ) (b : List Img) (x : Img) :
    (dequeAppend cap b x).length = b.length + 1 - (b.length + 1 - cap) := by
  simp [dequeAppend]

lemma ingestAll_cons (cap : ℕ) (b x : _) (xs : List Img) :
    ingestAll cap b (x :: xs) = ingestAll cap (dequeAppend cap b x) xs := rfl

lemma ingestAll_length_le (cap : ℕ) :
    ∀ (xs b : List Img), b.length ≤ cap → (ingestAll cap b xs).length ≤ cap := by
  intro xs
  induction xs with
  | nil => intro b hb; simpa [ingestAll] using hb
  | cons x xs ih =>
    intro b hb
    rw [ingestAll_cons]
    apply ih
    have := dequeAppend_length cap b x
    omega

lemma ingestAll_drop (cap : ℕ) :
    ∀ (xs b : List Img), b.length ≤ cap →
      ingestAll cap b xs = (b ++ xs).drop (b.length + xs.length - cap) := by
  intro xs
  induction xs with
  | nil =>
    intro b hb
    simp only [ingestAll, List.foldl_nil, List.append_nil, List.length_nil,
      Nat.add_zero]
    rw [Nat.sub_eq_zero_of_le hb, List.drop_zero]
  | cons x xs ih =>
    intro b hb
    rw [ingestAll_cons]
    by_cases hcase : b.length + 1 ≤ cap
    · have hd : dequeAppend cap b x = b ++ [x] := by
        unfold dequeAppend
        rw [Nat.sub_eq_zero_of_le hcase, List.drop_zero]
      rw [hd, ih (b ++ [x]) (by simp; omega)]
      rw [List.append_assoc, List.singleton_append]
      congr 1
      simp
      omega
    · have hblen : b.length = cap := by omega
      have hd : dequeAppend cap b x = (b ++ [x]).drop 1 := by
        unfold dequeAppend
        congr 1
        omega
      have hlen2 : ((b ++ [x]).drop 1).length = cap := by
        simp [hblen]
      rw [hd, ih _ (le_of_eq hlen2)]
      rw [hlen2]
      have h1 : (b ++ [x]).drop 1 ++ xs = ((b ++ [x]) ++ xs).drop 1 :=
        (List.drop_append_of_le_length (by simp)).symm
      rw [h1, List.drop_drop, List.append_assoc, List.singleton_append]
      congr 1
      simp
      omega

lemma analyze_result_spec (det : Detector) (frame : FrameData) (fn : String)
    (r : DetectionResult) (hne : det.thresholds ≠ [])
    (hv : 0 ≤ calculate_total_area det frame)
    (h : analyze_image det frame fn = some r) :
    ∃ a : ℕ, r.bee_area_pixels = (a : ℤ) ∧
      r.bee_percentage = round3 ((a : ℚ) / calculate_total_area det frame * 100) := by
  obtain ⟨pre, c, post, _, heq, _, _⟩ := bestCandidate_spec det frame fn hne hv
  unfold analyze_image at h
  rw [heq] at h
  simp only [Option.map_some'] at h
  injection h with h
  subst h
  unfold colorStep
  by_cases hc : (resultFor det frame fn c).bee_percentage * (12 / 10) <
      colorPct det frame ∧ 3 < colorPct det frame
  · rw [if_pos hc]
    exact ⟨calculate_bee_area frame.colorMask, rfl, rfl⟩
  · rw [if_neg hc]
    exact ⟨calculate_bee_area (detect_bees det frame c).1, rfl, rfl⟩

lemma contourArea_nonneg (pts : List (ℤ × ℤ)) : 0 ≤ contourArea pts := by
  unfold contourArea
  positivity

lemma init_total_nonneg (bg : Img) (va : ℚ) (hva : 0 ≤ va) (frame : FrameData) :
    0 ≤ calculate_total_area (BeeDetector.init bg (some va)) frame := by
  show 0 ≤ (if va ≠ 0 then va else ((frame.rows * frame.cols : ℕ) : ℚ))
  by_cases h : va ≠ 0
  · rw [if_pos h]; exact hva
  · rw [if_neg h]; exact Nat.cast_nonneg _

lemma init_thresholds (bg : Img) (va : Option ℚ) :
    (BeeDetector.init bg va).thresholds = [15, 25, 35, 45] := rfl

lemma create_background_from_buffer_isSome (buffer : List Img)
    (h5 : 5 ≤ buffer.length) :
    ∃ bg, create_background_from_buffer buffer = some bg := by
  unfold create_background_from_buffer
  rw [if_neg (by omega)]
  cases buffer with
  | nil => simp at h5
  | cons a as => exact ⟨_, rfl⟩

lemma update_background_thresholds (det : Detector) (bg : Img) :
    (update_background det bg).thresholds = det.thresholds := rfl

lemma update_background_valid (det : Detector) (bg : Img) :
    (update_background det bg).valid_area_pixels = det.valid_area_pixels := rfl

lemma calculate_total_area_congr (d1 d2 : Detector) (frame : FrameData)
    (h : d1.valid_area_pixels = d2.valid_area_pixels) :
    calculate_total_area d1 frame = calculate_total_area d2 frame := by
  unfold calculate_total_area
  rw [h]

lemma process_detector_some (cfg : ProcessingConfig) (crop : Img → Img)
    (measure : Img → FrameData) (proc : ImageProcessor) (st : PipelineState)
    (img : Img) (fn : String) (det : Detector)
    (hdet : st.bee_detector = some det) :
    ∃ det2, (process_single_image cfg crop measure proc st img fn).2 =
        analyze_image det2 (measure (crop img)) fn ∧
      det2.thresholds = det.thresholds ∧
      det2.valid_area_pixels = det.valid_area_pixels := by
  unfold process_single_image
  rw [hdet]
  by_cases hcond : st.image_count % cfg.background_update_frequency = 0 ∧
      cfg.background_size ≤
        (dequeAppend cfg.background_size st.image_buffer (crop img)).length
  · cases hbg : create_background_from_buffer
        (dequeAppend cfg.background_size st.image_buffer (crop img)) with
    | some bg =>
      refine ⟨update_background det bg, ?_, rfl, rfl⟩
      simp only [if_pos hcond, hbg]
    | none =>
      refine ⟨det, ?_, rfl, rfl⟩
      simp only [if_pos hcond, hbg]
  · refine ⟨det, ?_, rfl, rfl⟩
    simp only [if_neg hcond]

lemma shoelace_sq : shoelace sqPoly = 8 := by decide

lemma contourArea_sq : contourArea sqPoly = 4 := by
  unfold contourArea
  rw [shoelace_sq]
  norm_num

lemma exDetSq_total (frame : FrameData) :
    calculate_total_area exDetSq frame = 4 := by
  have h : exDetSq.valid_area_pixels = some (contourArea sqPoly) := rfl
  unfold calculate_total_area
  rw [h, contourArea_sq]
  norm_num

lemma exDetNone_totalB : calculate_total_area exDetNone exFrameB = 9 := by
  have h : exDetNone.valid_area_pixels = none := rfl
  unfold calculate_total_area
  rw [h]
  norm_num [exFrameB]

lemma exMaskFull_area : calculate_bee_area exMaskFull = 9 := by decide

lemma exMaskZero_area : calculate_bee_area exMaskZero = 0 := by decide

lemma emptyMask_area : calculate_bee_area (maskUnion 3 3 []) = 0 := by decide

lemma init_reject_small (bg : Img) (va : Option ℚ) :
    contourAccept (BeeDetector.init bg va) smallContour = false := by
  unfold contourAccept BeeDetector.init smallContour
  norm_num [MIN_BEE_AREA]

lemma init_detect_small (bg : Img) (va : Option ℚ) (frame : FrameData)
    (t : ℕ) (hd : frame.detect t = [smallContour]) (hr : frame.rows = 3)
    (hc : frame.cols = 3) :
    detect_bees (BeeDetector.init bg va) frame t = (maskUnion 3 3 [], []) := by
  simp only [detect_bees, hd, hr, hc]
  simp [init_reject_small]

lemma init_beeArea_small (bg : Img) (va : Option ℚ) (frame : FrameData)
    (t : ℕ) (hd : frame.detect t = [smallContour]) (hr : frame.rows = 3)
    (hc : frame.cols = 3) :
    calculate_bee_area (detect_bees (BeeDetector.init bg va) frame t).1 = 0 := by
  rw [init_detect_small bg va frame t hd hr hc]
  exact emptyMask_area

lemma init_nc_small (bg : Img) (va : Option ℚ) (frame : FrameData) (t : ℕ)
    (hd : frame.detect t = [smallContour]) (hr : frame.rows = 3)
    (hc : frame.cols = 3) :
    numContoursAt (BeeDetector.init bg va) frame t = 0 := by
  unfold numContoursAt
  rw [init_detect_small bg va frame t hd hr hc]
  rfl

lemma init_pct_small (bg : Img) (va : Option ℚ) (frame : FrameData) (t : ℕ)
    (hd : frame.detect t = [smallContour]) (hr : frame.rows = 3)
    (hc : frame.cols = 3) :
    pctAt (BeeDetector.init bg va) frame t = 0 := by
  unfold pctAt
  rw [init_beeArea_small bg va frame t hd hr hc]
  norm_num

lemma init_score_small (bg : Img) (va : Option ℚ) (frame : FrameData) (t : ℕ)
    (hd : frame.detect t = [smallContour]) (hr : frame.rows = 3)
    (hc : frame.cols = 3) :
    scoreAt (BeeDetector.init bg va) frame t = 0 := by
  unfold scoreAt
  rw [init_pct_small bg va frame t hd hr hc,
    init_nc_small bg va frame t hd hr hc]
  norm_num

lemma exSqA_beeArea (t : ℕ) :
    calculate_bee_area (detect_bees exDetSq exFrameA t).1 = 0 :=
  init_beeArea_small [[0]] (some (contourArea sqPoly)) exFrameA t rfl rfl rfl

lemma exSqA_nc (t : ℕ) : numContoursAt exDetSq exFrameA t = 0 :=
  init_nc_small [[0]] (some (contourArea sqPoly)) exFrameA t rfl rfl rfl

lemma exSqA_score (t : ℕ) : scoreAt exDetSq exFrameA t = 0 :=
  init_score_small [[0]] (some (contourArea sqPoly)) exFrameA t rfl rfl rfl

lemma exSqB_beeArea (t : ℕ) :
    calculate_bee_area (detect_bees exDetSq exFrameB t).1 = 0 :=
  init_beeArea_small [[0]] (some (contourArea sqPoly)) exFrameB t rfl rfl rfl

lemma exSqB_nc (t : ℕ) : numContoursAt exDetSq exFrameB t = 0 :=
  init_nc_small [[0]] (some (contourArea sqPoly)) exFrameB t rfl rfl rfl

lemma exSqB_score (t : ℕ) : scoreAt exDetSq exFrameB t = 0 :=
  init_score_small [[0]] (some (contourArea sqPoly)) exFrameB t rfl rfl rfl

lemma exNoneB_beeArea (t : ℕ) :
    calculate_bee_area (detect_bees exDetNone exFrameB t).1 = 0 :=
  init_beeArea_small [[0]] none exFrameB t rfl rfl rfl

lemma exNoneB_nc (t : ℕ) : numContoursAt exDetNone exFrameB t = 0 :=
  init_nc_small [[0]] none exFrameB t rfl rfl rfl

lemma exNoneB_score (t : ℕ) : scoreAt exDetNone exFrameB t = 0 :=
  init_score_small [[0]] none exFrameB t rfl rfl rfl

lemma resultFor_SqA : resultFor exDetSq exFrameA "frame.jpg" 15 = exResultSq := by
  simp only [resultFor, exSqA_beeArea, exSqA_nc, exSqA_score, exDetSq_total]
  norm_num [exResultSq, truncQ, round3, round2, round_eq]

lemma resultFor_SqB : resultFor exDetSq exFrameB "frame.jpg" 15 = exResultSq := by
  simp only [resultFor, exSqB_beeArea, exSqB_nc, exSqB_score, exDetSq_total]
  norm_num [exResultSq, truncQ, round3, round2, round_eq]

lemma resultFor_NoneB :
    resultFor exDetNone exFrameB "frame.jpg" 15 = exResultNoneB := by
  simp only [resultFor, exNoneB_beeArea, exNoneB_nc, exNoneB_score,
    exDetNone_totalB]
  norm_num [exResultNoneB, truncQ, round3, round2, round_eq]

lemma colorPct_SqA : colorPct exDetSq exFrameA = 0 := by
  have h0 : calculate_bee_area exFrameA.colorMask = 0 := exMaskZero_area
  unfold colorPct
  rw [h0, exDetSq_total]
  norm_num

lemma colorPct_SqB : colorPct exDetSq exFrameB = 225 := by
  have h9 : calculate_bee_area exFrameB.colorMask = 9 := exMaskFull_area
  unfold colorPct
  rw [h9, exDetSq_total]
  norm_num

lemma colorPct_NoneB : colorPct exDetNone exFrameB = 100 := by
  have h9 : calculate_bee_area exFrameB.colorMask = 9 := exMaskFull_area
  unfold colorPct
  rw [h9, exDetNone_totalB]
  norm_num

lemma bestCandidate_SqA :
    (bestCandidate exDetSq exFrameA "frame.jpg").1 = some exResultSq := by
  have hth : exDetSq.thresholds = [15, 25, 35, 45] := rfl
  unfold bestCandidate
  rw [hth]
  simp only [List.foldl_cons, List.foldl_nil, amStep, exSqA_score]
  norm_num [resultFor_SqA]

lemma bestCandidate_SqB :
    (bestCandidate exDetSq exFrameB "frame.jpg").1 = some exResultSq := by
  have hth : exDetSq.thresholds = [15, 25, 35, 45] := rfl
  unfold bestCandidate
  rw [hth]
  simp only [List.foldl_cons, List.foldl_nil, amStep, exSqB_score]
  norm_num [resultFor_SqB]

lemma bestCandidate_NoneB :
    (bestCandidate exDetNone exFrameB "frame.jpg").1 = some exResultNoneB := by
  have hth : exDetNone.thresholds = [15, 25, 35, 45] := rfl
  unfold bestCandidate
  rw [hth]
  simp only [List.foldl_cons, List.foldl_nil, amStep, exNoneB_score]
  norm_num [resultFor_NoneB]

lemma analyze_SqA :
    analyze_image exDetSq exFrameA "frame.jpg" = some exResultSq := by
  unfold analyze_image
  rw [bestCandidate_SqA, Option.map_some']
  congr 1
  unfold colorStep
  rw [colorPct_SqA]
  norm_num [exResultSq]

lemma analyze_SqB :
    analyze_image exDetSq exFrameB "frame.jpg" = some exResultColorSq := by
  unfold analyze_image
  rw [bestCandidate_SqB, Option.map_some']
  congr 1
  unfold colorStep
  rw [colorPct_SqB]
  rw [if_pos (by norm_num [exResultSq])]
  have h9 : calculate_bee_area exFrameB.colorMask = 9 := exMaskFull_area
  rw [h9]
  norm_num [exResultSq, exResultColorSq, exFrameB, smallContour, exDetSq,
    BeeDetector.init, MIN_BEE_AREA, MAX_BEE_AREA, round3, round_eq]

lemma analyze_NoneB :
    analyze_image exDetNone exFrameB "frame.jpg" = some exResultColorNone := by
  unfold analyze_image
  rw [bestCandidate_NoneB, Option.map_some']
  congr 1
  unfold colorStep
  rw [colorPct_NoneB]
  rw [if_pos (by norm_num [exResultNoneB])]
  have h9 : calculate_bee_area exFrameB.colorMask = 9 := exMaskFull_area
  rw [h9]
  norm_num [exResultNoneB, exResultColorNone, exFrameB, smallContour,
    exDetNone, BeeDetector.init, MIN_BEE_AREA, MAX_BEE_AREA, round3, round_eq]

lemma exDetSq_total_nonneg : 0 ≤ calculate_total_area exDetSq exFrameA := by
  rw [exDetSq_total]
  norm_num

lemma exDetNone_totalB_nonneg : 0 ≤ calculate_total_area exDetNone exFrameB := by
  rw [exDetNone_totalB]
  norm_num

/-- C1: in `analyze_image` the colour-segmentation candidate replaces the
primary background-subtraction candidate if and only if the colour coverage
percentage is strictly greater than 1.2 times the primary candidate's
coverage percentage and strictly greater than 3; when the colour coverage
equals exactly 1.2 times the primary coverage the fallback is not triggered
and the result's `detection_method` stays `"background_subtraction"`. -/
theorem claim_C1_color_fallback (det : Detector) (frame : FrameData)
    (fn : String) (hne : det.thresholds ≠ [])
    (hv : 0 ≤ calculate_total_area det frame) (p r : DetectionResult)
    (hp : (bestCandidate det frame fn).1 = some p)
    (hr : analyze_image det frame fn = some r) :
    p.detection_method = "background_subtraction" ∧
    (r.detection_method = "color_segmentation" ↔
      p.bee_percentage * (12 / 10) < colorPct det frame ∧
        3 < colorPct det frame) ∧
    (colorPct det frame = p.bee_percentage * (12 / 10) →
      r.detection_method = "background_subtraction") := by
  obtain ⟨pre, c, post, _, heq, _, _⟩ := bestCandidate_spec det frame fn hne hv
  rw [heq] at hp
  injection hp with hp
  have hrr : analyze_image det frame fn =
      some (colorStep det frame (resultFor det frame fn c)) := by
    unfold analyze_image
    rw [heq, Option.map_some']
  rw [hrr] at hr
  injection hr with hr
  subst hp
  subst hr
  refine ⟨rfl, ?_, ?_⟩
  · unfold colorStep
    by_cases hc : (resultFor det frame fn c).bee_percentage * (12 / 10) <
        colorPct det frame ∧ 3 < colorPct det frame
    · rw [if_pos hc]
      exact iff_of_true rfl hc
    · rw [if_neg hc]
      refine iff_of_false ?_ hc
      rw [resultFor_method]
      decide
  · intro hb
    have hneg : ¬ ((resultFor det frame fn c).bee_percentage * (12 / 10) <
        colorPct det frame ∧ 3 < colorPct det frame) := by
      rintro ⟨h1, -⟩
      rw [hb] at h1
      exact lt_irrefl _ h1
    unfold colorStep
    rw [if_neg hneg]
    exact resultFor_method det frame fn c

/-- Witness for C1 at a concrete detector and frame. -/
theorem claim_C1_witness :
    exResultSq.detection_method = "background_subtraction" ∧
    (exResultSq.detection_method = "color_segmentation" ↔
      exResultSq.bee_percentage * (12 / 10) < colorPct exDetSq exFrameA ∧
        3 < colorPct exDetSq exFrameA) ∧
    (colorPct exDetSq exFrameA = exResultSq.bee_percentage * (12 / 10) →
      exResultSq.detection_method = "background_subtraction") :=
  claim_C1_color_fallback exDetSq exFrameA "frame.jpg" (by decide)
    exDetSq_total_nonneg exResultSq exResultSq bestCandidate_SqA analyze_SqA

/-- C2: for every frame, `analyze_image` scores each configured threshold
with `min(coverage, 60) + min(2 * contours, 20)` and the primary candidate
(before any colour fallback) is the result of a threshold whose score is
maximal over the configured thresholds; every threshold listed strictly
earlier than the chosen one scores strictly less, so ties keep the earlier
threshold in the configured order. -/
theorem claim_C2_threshold_selection (det : Detector) (frame : FrameData)
    (fn : String) (hne : det.thresholds ≠ [])
    (hv : 0 ≤ calculate_total_area det frame) :
    ∃ pre c post, det.thresholds = pre ++ c :: post ∧
      (bestCandidate det frame fn).1 = some (resultFor det frame fn c) ∧
      scoreAt det frame c = min (pctAt det frame c) 60 +
        ((min (2 * numContoursAt det frame c) 20 : ℕ) : ℚ) ∧
      (∀ t ∈ det.thresholds, scoreAt det frame t ≤ scoreAt det frame c) ∧
      (∀ t ∈ pre, scoreAt det frame t < scoreAt det frame c) := by
  obtain ⟨pre, c, post, h1, h2, h3, h4⟩ := bestCandidate_spec det frame fn hne hv
  exact ⟨pre, c, post, h1, h2, rfl, h3, h4⟩

/-- Witness for C2 at a concrete detector and frame. -/
theorem claim_C2_witness :
    ∃ pre c post, exDetSq.thresholds = pre ++ c :: post ∧
      (bestCandidate exDetSq exFrameA "frame.jpg").1 =
        some (resultFor exDetSq exFrameA "frame.jpg" c) ∧
      scoreAt exDetSq exFrameA c = min (pctAt exDetSq exFrameA c) 60 +
        ((min (2 * numContoursAt exDetSq exFrameA c) 20 : ℕ) : ℚ) ∧
      (∀ t ∈ exDetSq.thresholds,
        scoreAt exDetSq exFrameA t ≤ scoreAt exDetSq exFrameA c) ∧
      (∀ t ∈ pre, scoreAt exDetSq exFrameA t < scoreAt exDetSq exFrameA c) :=
  claim_C2_threshold_selection exDetSq exFrameA "frame.jpg" (by decide)
    exDetSq_total_nonneg

/-- C3 as stated is false: when `valid_area_pixels` is the polygon's
mathematical contour area, the counted mask pixels can exceed it. For the
square (0,0)-(2,0)-(2,2)-(0,2) the contour area is 4 while the cropped frame
holds 9 pixels: on a fully bee-coloured frame the colour fallback fires
(colour coverage 225 > 1.2 * 0 and > 3) and the result reports
`bee_area_pixels = 9 > 4 = total_area_pixels` and coverage 225% > 100%. -/
theorem claim_C3_counterexample :
    analyze_image exDetSq exFrameB "frame.jpg" = some exResultColorSq ∧
    exDetSq.valid_area_pixels = some (contourArea sqPoly) ∧
    contourArea sqPoly = 4 ∧
    exResultColorSq.total_area_pixels < exResultColorSq.bee_area_pixels ∧
    100 < exResultColorSq.bee_percentage := by
  refine ⟨analyze_SqB, rfl, contourArea_sq, ?_, ?_⟩
  · decide
  · norm_num [exResultColorSq]

/-- C3 amended: every analysis result stores a natural bee-pixel count, so
`0 ≤ bee_area_pixels`, and its coverage percentage equals
`100 * bee_area / total_area` rounded to 3 decimals (with the untruncated
total area), hence `0 ≤ coverage`; the upper bound `coverage ≤ 100` (and with
it `bee_area_pixels ≤ total_area_pixels`) holds only under the additional
assumption that the counted bee pixels do not exceed the total area — which
the code guarantees for a full-pixel-count total but not when the polygon's
mathematical contour area is supplied as `valid_area_pixels`. -/
theorem claim_C3_invariants (det : Detector) (frame : FrameData) (fn : String)
    (r : DetectionResult) (hne : det.thresholds ≠ [])
    (hv : 0 ≤ calculate_total_area det frame)
    (h : analyze_image det frame fn = some r) :
    0 ≤ r.bee_area_pixels ∧
    r.bee_percentage =
      round3 ((r.bee_area_pixels : ℚ) / calculate_total_area det frame * 100) ∧
    0 ≤ r.bee_percentage ∧
    ((r.bee_area_pixels : ℚ) ≤ calculate_total_area det frame →
      r.bee_percentage ≤ 100) := by
  obtain ⟨a, ha, hpct⟩ := analyze_result_spec det frame fn r hne hv h
  have hcast : ((r.bee_area_pixels : ℤ) : ℚ) = (a : ℚ) := by
    rw [ha]
    push_cast
    rfl
  have h0 : (0 : ℚ) ≤ (a : ℚ) / calculate_total_area det frame * 100 :=
    mul_nonneg (div_nonneg (Nat.cast_nonneg _) hv) (by norm_num)
  refine ⟨?_, ?_, ?_, ?_⟩
  · rw [ha]
    exact Int.natCast_nonneg a
  · rw [hcast, hpct]
  · rw [hpct]
    exact round3_nonneg h0
  · intro hle
    rw [hcast] at hle
    rw [hpct]
    apply round3_le_100
    rcases eq_or_lt_of_le hv with heq0 | hpos
    · have ha0 : (a : ℚ) = 0 := le_antisymm (heq0 ▸ hle) (Nat.cast_nonneg a)
      rw [ha0]
      norm_num
    · have hdiv : (a : ℚ) / calculate_total_area det frame ≤ 1 :=
        (div_le_one hpos).mpr hle
      linarith

/-- Witness for the amended C3 at a concrete detector and frame whose total
area is the full pixel count. -/
theorem claim_C3_witness :
    0 ≤ exResultColorNone.bee_area_pixels ∧
    exResultColorNone.bee_percentage =
      round3 ((exResultColorNone.bee_area_pixels : ℚ) /
        calculate_total_area exDetNone exFrameB * 100) ∧
    0 ≤ exResultColorNone.bee_percentage ∧
    ((exResultColorNone.bee_area_pixels : ℚ) ≤
        calculate_total_area exDetNone exFrameB →
      exResultColorNone.bee_percentage ≤ 100) :=
  claim_C3_invariants exDetNone exFrameB "frame.jpg" exResultColorNone
    (by decide) exDetNone_totalB_nonneg analyze_NoneB

/-- C9: for any detector built by the constructor, a contour whose convex
hull has zero area receives solidity 0 (no division by zero) and is
rejected by the shape filter; and `analyze_image` always returns a result
because the configured threshold list is nonempty and every score exceeds
the initial sentinel -1. -/
theorem claim_C9_analysis_safety (bg : Img) (va : Option ℚ) (frame : FrameData)
    (fn : String)
    (hv : 0 ≤ calculate_total_area (BeeDetector.init bg va) frame) :
    (∀ c : Contour, c.hullArea = 0 →
      solidityOf c = 0 ∧ contourAccept (BeeDetector.init bg va) c = false) ∧
    (analyze_image (BeeDetector.init bg va) frame fn).isSome = true := by
  constructor
  · intro c hc
    have hs : solidityOf c = 0 := by
      unfold solidityOf
      rw [hc]
      simp
    refine ⟨hs, ?_⟩
    have hneg : ¬ ((BeeDetector.init bg va).min_aspect ≤ aspectOf c ∧
        aspectOf c ≤ (BeeDetector.init bg va).max_aspect ∧
        (BeeDetector.init bg va).min_solidity < solidityOf c) := by
      rintro ⟨-, -, hlt⟩
      rw [hs] at hlt
      norm_num [BeeDetector.init, MIN_SOLIDITY] at hlt
    unfold contourAccept
    simp [hneg]
  · exact analyze_isSome _ frame fn (by rw [init_thresholds]; simp) hv

/-- Witness for C9 at a concrete detector, frame and degenerate contour. -/
theorem claim_C9_witness :
    (solidityOf zeroHullContour = 0 ∧
      contourAccept (BeeDetector.init [[0]] (some 4)) zeroHullContour = false) ∧
    (analyze_image (BeeDetector.init [[0]] (some 4)) exFrameA "w9.jpg").isSome
      = true :=
  ⟨(claim_C9_analysis_safety [[0]] (some 4) exFrameA "w9.jpg"
      (init_total_nonneg [[0]] 4 (by norm_num) exFrameA)).1 zeroHullContour rfl,
   (claim_C9_analysis_safety [[0]] (some 4) exFrameA "w9.jpg"
      (init_total_nonneg [[0]] 4 (by norm_num) exFrameA)).2⟩

/-- C4: while the detector has not been created and the buffer stays below
the configured background size, processing an ingested frame emits no
detection result; once a detector exists (or is created because the buffer
just reached the background size with at least the 5 frames the background
builder demands), processing emits exactly one detection result. -/
theorem claim_C4_pipeline_emission (cfg : ProcessingConfig) (crop : Img → Img)
    (measure : Img → FrameData) (proc : ImageProcessor) (st : PipelineState)
    (img : Img) (fn : String) :
    (st.bee_detector = none →
      (dequeAppend cfg.background_size st.image_buffer (crop img)).length <
        cfg.background_size →
      (process_single_image cfg crop measure proc st img fn).2 = none) ∧
    (∀ det, st.bee_detector = some det → det.thresholds ≠ [] →
      0 ≤ calculate_total_area det (measure (crop img)) →
      ((process_single_image cfg crop measure proc st img fn).2).isSome
        = true) ∧
    (st.bee_detector = none → 0 ≤ proc.polygon_area →
      cfg.background_size ≤
        (dequeAppend cfg.background_size st.image_buffer (crop img)).length →
      5 ≤ (dequeAppend cfg.background_size st.image_buffer (crop img)).length →
      ((process_single_image cfg crop measure proc st img fn).2).isSome
        = true) := by
  refine ⟨?_, ?_, ?_⟩
  · intro hdet hlt
    unfold process_single_image
    rw [hdet]
    simp only [if_neg (not_le.mpr hlt)]
  · intro det hdet hne hv
    obtain ⟨det2, heq, hth, hva⟩ :=
      process_detector_some cfg crop measure proc st img fn det hdet
    rw [heq]
    apply analyze_isSome
    · rw [hth]; exact hne
    · rw [calculate_total_area_congr det2 det _ hva]; exact hv
  · intro hdet hpa hsize h5
    obtain ⟨bg, hbg⟩ := create_background_from_buffer_isSome _ h5
    unfold process_single_image
    rw [hdet]
    simp only [if_pos hsize, hbg]
    apply analyze_isSome
    · rw [init_thresholds]; simp
    · exact init_total_nonneg bg proc.polygon_area hpa _

/-- Witness for C4: a fresh pipeline emits nothing for the first frame under
the default window of 15; a pipeline that already has a detector emits one
result. -/
theorem claim_C4_witness :
    (process_single_image cfg15 id exMeasure (ImageProcessor.init sqPoly) st0
      imgA "a.jpg").2 = none ∧
    ((process_single_image cfg1 id exMeasure (ImageProcessor.init sqPoly) stDet
      imgA "a.jpg").2).isSome = true :=
  ⟨(claim_C4_pipeline_emission cfg15 id exMeasure (ImageProcessor.init sqPoly)
      st0 imgA "a.jpg").1 rfl (by decide),
   (claim_C4_pipeline_emission cfg1 id exMeasure (ImageProcessor.init sqPoly)
      stDet imgA "a.jpg").2.1 exDetSq rfl (by decide) exDetSq_total_nonneg⟩

/-- C6: a buffer fed through the deque-with-maxlen never exceeds the
configured capacity, and after capacity+1 insertions the first-inserted
frame is no longer present (oldest-first eviction), provided it does not
also occur among the later arrivals. -/
theorem claim_C6_buffer_capacity (cap : ℕ) (xs : List Img) (f0 : Img)
    (rest : List Img) :
    (ingestAll cap [] xs).length ≤ cap ∧
    (rest.length = cap → f0 ∉ rest → f0 ∉ ingestAll cap [] (f0 :: rest)) := by
  constructor
  · exact ingestAll_length_le cap xs [] (by simp)
  · intro hlen hmem
    rw [ingestAll_drop cap (f0 :: rest) [] (by simp)]
    have hidx : List.length ([] : List Img) + (f0 :: rest).length - cap = 1 := by
      simp only [List.length_nil, List.length_cons, hlen]
      omega
    rw [hidx]
    simpa using hmem

/-- Witness for C6 with capacity 2 and three insertions. -/
theorem claim_C6_witness :
    (ingestAll 2 [] [imgA, imgB, imgA]).length ≤ 2 ∧
    imgA ∉ ingestAll 2 [] [imgA, imgB, imgB] :=
  ⟨(claim_C6_buffer_capacity 2 [imgA, imgB, imgA] imgA [imgB, imgB]).1,
   (claim_C6_buffer_capacity 2 [imgA, imgB, imgA] imgA [imgB, imgB]).2
     (by decide) (by decide)⟩

/-- C7: with the 'median' method (the one the pipeline uses),
`create_background` signals failure (None) exactly when the input frame list
is empty. -/
theorem claim_C7_empty_background (image_list : List Img) :
    create_background image_list "median" = none ↔ image_list = [] := by
  cases image_list with
  | nil => simp [create_background]
  | cons a as => simp [create_background]

/-- C8 as stated is false: `ImageProcessor` construction performs no
validation, so a two-point "polygon" is accepted rather than rejected. -/
theorem claim_C8_counterexample :
    ¬ (((buildRegion twoPts).isNone = true) ↔
      (twoPts.length < 3 ∨ contourArea twoPts = 0)) := by
  intro h
  have h1 : twoPts.length < 3 := by decide
  have h2 : (buildRegion twoPts).isNone = true := h.mpr (Or.inl h1)
  simp [buildRegion] at h2

/-- C8 amended: constructing a Region never fails — `ImageProcessor`
accepts every point sequence (fewer than 3 points and degenerate zero-area
polygons included) without validation; separately, the manual cropper's
finishing right-click is honoured only once more than 2 points are placed,
but it never checks for degeneracy. -/
theorem claim_C8_amended (pts : List (ℤ × ℤ)) :
    (buildRegion pts).isSome = true ∧
    buildRegion pts = some (ImageProcessor.init pts) ∧
    (ManualCropper.canFinish pts = true ↔ 2 < pts.length) := by
  refine ⟨rfl, rfl, ?_⟩
  simp [ManualCropper.canFinish]

/-- C10: `calculate_total_area` falls back to the full pixel count not only
when no valid area was supplied but also when the supplied value is 0
(Python truthiness); a degenerate polygon has mathematical area 0, so its
coverage is silently computed against the whole cropped frame; any nonzero
supplied value is returned as-is. -/
theorem claim_C10_truthiness (bg : Img) (frame : FrameData) :
    calculate_total_area (BeeDetector.init bg (some 0)) frame =
      ((frame.rows * frame.cols : ℕ) : ℚ) ∧
    calculate_total_area (BeeDetector.init bg none) frame =
      ((frame.rows * frame.cols : ℕ) : ℚ) ∧
    (∀ v : ℚ, v ≠ 0 →
      calculate_total_area (BeeDetector.init bg (some v)) frame = v) ∧
    contourArea degPoly = 0 := by
  refine ⟨?_, rfl, ?_, ?_⟩
  · show (if (0 : ℚ) ≠ 0 then (0 : ℚ)
      else ((frame.rows * frame.cols : ℕ) : ℚ)) = _
    norm_num
  · intro v hv
    show (if v ≠ 0 then v else ((frame.rows * frame.cols : ℕ) : ℚ)) = v
    rw [if_pos hv]
  · have hz : shoelace degPoly = 0 := by decide
    unfold contourArea
    rw [hz]
    norm_num

/-- Witness for C10 at a concrete frame. -/
theorem claim_C10_witness :
    calculate_total_area (BeeDetector.init [[0]] (some 0)) exFrameA =
      ((exFrameA.rows * exFrameA.cols : ℕ) : ℚ) ∧
    calculate_total_area (BeeDetector.init [[0]] (some 4)) exFrameA = 4 :=
  ⟨(claim_C10_truthiness [[0]] exFrameA).1,
   (claim_C10_truthiness [[0]] exFrameA).2.2.1 4 (by norm_num)⟩

/-- C5 as stated is false: `create_background` resizes every frame to the
FIRST frame's dimensions, so permuting a frame set whose members differ in
size changes the target dimensions and hence the output. Swapping a 1x1 and
a 2x1 frame yields backgrounds of different shapes. -/
theorem claim_C5_counterexample :
    List.Perm [imgA, imgB] [imgB, imgA] ∧
    create_background [imgA, imgB] "median" ≠
      create_background [imgB, imgA] "median" := by
  constructor
  · exact List.Perm.swap imgB imgA []
  · decide

/-- C5 amended: for frames that all share one fixed dimension (so the
resize-to-first-frame step is the identity), `create_background` with the
'median' method is invariant under any permutation of the input sequence:
the per-pixel median is order-independent and the same blur is applied. -/
theorem claim_C5_median_perm (l l' : List Img) (h w : ℕ)
    (hdim : ∀ img ∈ l, img.rowCount = h ∧ img.colCount = w)
    (hp : l.Perm l') :
    create_background l "median" = create_background l' "median" := by
  cases l with
  | nil =>
    have h0 : l' = [] := by
      have hlen := hp.length_eq
      exact List.length_eq_zero.mp hlen.symm
    rw [h0]
  | cons a as =>
    cases l' with
    | nil => exact absurd hp.length_eq (by simp)
    | cons b bs =>
      have hdim' : ∀ img ∈ b :: bs, img.rowCount = h ∧ img.colCount = w :=
        fun img hm => hdim img (hp.mem_iff.mpr hm)
      have ha := hdim a (List.mem_cons_self a as)
      have hb := hdim' b (List.mem_cons_self b bs)
      have hpa : ((a :: as).map fun img =>
          if img.rowCount = a.rowCount ∧ img.colCount = a.colCount then img
          else resizeNN img a.rowCount a.colCount) = a :: as := by
        have hmc : ((a :: as).map fun img =>
            if img.rowCount = a.rowCount ∧ img.colCount = a.colCount then img
            else resizeNN img a.rowCount a.colCount) = (a :: as).map id :=
          List.map_congr_left fun img hm => by
            obtain ⟨h1, h2⟩ := hdim img hm
            simp [h1, h2, ha.1, ha.2]
        rw [hmc, List.map_id]
      have hpb : ((b :: bs).map fun img =>
          if img.rowCount = b.rowCount ∧ img.colCount = b.colCount then img
          else resizeNN img b.rowCount b.colCount) = b :: bs := by
        have hmc : ((b :: bs).map fun img =>
            if img.rowCount = b.rowCount ∧ img.colCount = b.colCount then img
            else resizeNN img b.rowCount b.colCount) = (b :: bs).map id :=
          List.map_congr_left fun img hm => by
            obtain ⟨h1, h2⟩ := hdim' img hm
            simp [h1, h2, hb.1, hb.2]
        rw [hmc, List.map_id]
      have hms : medianStack (a :: as) h w = medianStack (b :: bs) h w := by
        unfold medianStack
        refine List.map_congr_left fun i _ => ?_
        refine List.map_congr_left fun j _ => ?_
        exact medianNat_perm (hp.map fun f => f.pixAt i j)
      simp only [create_background, if_true]
      rw [hpa, hpb, ha.1, ha.2, hb.1, hb.2, hms]

/-- Witness for the amended C5: two 1x1 frames swapped give the same
background. -/
theorem claim_C5_witness :
    create_background [imgA, imgC] "median" =
      create_background [imgC, imgA] "median" :=
  claim_C5_median_perm [imgA, imgC] [imgC, imgA] 1 1 (by decide)
    (List.Perm.swap imgC imgA [])
